import Mathlib

/-!
Shallow embedding of the covid-dashboard data pipeline (src/covid_dashboard/app.py).

The pipeline is: Record Normalizer (timestamp coercion + dropna), Daily
Aggregator (`groupby(['Country','Date']).agg(sum)`), Feature Deriver
(`Recovered`/`Active` columns), and the Query Engine (`update_dashboard`:
filter by country and inclusive date range, sort by date, KPI computation).

Calendar dates are modelled as natural-number day keys (Python `date` values
are totally ordered; only ordering and equality are used by the code).
NumPy float arithmetic on `(Confirmed - Deaths) * 0.8` is modelled exactly
over `ℚ` with `0.8 = 4/5`.
-/

namespace CovidDashboard

/-- RawRecord: one row of the input CSV after column selection/renaming
(`Country`, `Date` still a raw timestamp string, `Confirmed`, `Deaths`). -/
structure RawRecord where
  country : String
  timestamp : String
  confirmed : ℤ
  deaths : ℤ
deriving DecidableEq

/-- NormalizedRecord / DailyCountryRecord: a dataframe row after timestamp
coercion (and, for the Aggregator output, after groupby-sum). -/
structure Row where
  country : String
  date : ℕ
  confirmed : ℤ
  deaths : ℤ
deriving DecidableEq

/-- DerivedRecord: a Row plus the engineered `Recovered` and `Active` columns. -/
structure DerivedRecord where
  country : String
  date : ℕ
  confirmed : ℤ
  deaths : ℤ
  recovered : ℤ
  active : ℤ
deriving DecidableEq

/-! ## Record Normalizer

`pd.to_datetime(data['Date'], utc=True, errors='coerce').dt.tz_localize(None).dt.date`
followed by `data.dropna(subset=['Date'])`: rows whose timestamp fails to
parse become NaT and are dropped.  `pd.to_datetime` is an external library
routine; the normalizer is parameterized by the timestamp parser. -/

/-- The Normalizer: coerce each timestamp with `parse`; rows whose timestamp
fails to parse are dropped (`errors='coerce'` then `dropna`). -/
def normalize (parse : String → Option ℕ) (l : List RawRecord) : List Row :=
  l.filterMap fun r =>
    (parse r.timestamp).map fun dt =>
      { country := r.country, date := dt, confirmed := r.confirmed, deaths := r.deaths }

/-- Number of rows dropped by the Normalizer.  The program computes no such
count anywhere; this definition exists only to state claims about it. -/
def excludedCount (parse : String → Option ℕ) (l : List RawRecord) : ℕ :=
  (l.filter fun r => (parse r.timestamp).isNone).length

/-! ## Daily Aggregator

`data.groupby(['Country', 'Date'], as_index=False).agg({'Confirmed': 'sum', 'Deaths': 'sum'})`:
group rows by the (Country, Date) key, sum `Confirmed` and `Deaths` within
each group; pandas emits the groups sorted ascending by key. -/

/-- The groupby key `(Country, Date)`. -/
def rowKey (r : Row) : String × ℕ := (r.country, r.date)

/-- One aggregated row: the key's country and date with the group's sums. -/
def aggRecord (l : List Row) (k : String × ℕ) : Row :=
  { country := k.1, date := k.2
    confirmed := ((l.filter fun r => rowKey r = k).map (·.confirmed)).sum
    deaths := ((l.filter fun r => rowKey r = k).map (·.deaths)).sum }

/-- The Daily Aggregator: one output row per distinct (country, date) key,
with `confirmed`/`deaths` summed over the key's group.  (pandas emits the
groups sorted by key; the downstream code never depends on that order — the
Query Engine re-sorts — so the embedding keeps first-occurrence key order.) -/
def aggregate (l : List Row) : List Row :=
  ((l.map rowKey).dedup).map (aggRecord l)

/-! ## Feature Deriver

`data['Recovered'] = np.clip((data['Confirmed'] - data['Deaths']) * 0.8, a_min=0, a_max=None).astype(int)`
`data['Active'] = data['Confirmed'] - data['Deaths'] - data['Recovered']` -/

/-- `np.clip((c - d) * 0.8, 0, None).astype(int)`: scale by 0.8 (= 4/5,
modelled exactly), clip below at 0, truncate to integer.  Truncation toward
zero coincides with `⌊·⌋` because the clipped value is nonnegative. -/
def deriveRecovered (c d : ℤ) : ℤ :=
  ⌊max (((c : ℚ) - (d : ℚ)) * (4 / 5)) 0⌋

/-- Modelled from the spec: `recovered = floor(max(0, (confirmed - deaths) * 0.8))`
with the clamp to non-negative applied to `(confirmed - deaths)` before
scaling by 0.8, and floor applied last. -/
def specRecovered (c d : ℤ) : ℤ :=
  ⌊(max (((c : ℚ) - (d : ℚ))) 0) * (4 / 5)⌋

/-- Derive the `Recovered` and `Active` columns of one row. -/
def deriveRow (r : Row) : DerivedRecord :=
  { country := r.country, date := r.date, confirmed := r.confirmed, deaths := r.deaths
    recovered := deriveRecovered r.confirmed r.deaths
    active := r.confirmed - r.deaths - deriveRecovered r.confirmed r.deaths }

/-- The Feature Deriver applied to the whole aggregated dataframe. -/
def derive (l : List Row) : List DerivedRecord := l.map deriveRow

/-! ## Query Engine (`update_dashboard`) -/

/-- `sorted(data['Country'].unique())`: the dataset's country domain.
(The code sorts the names for the dropdown; only membership in the domain is
ever consulted, so the embedding keeps first-occurrence order.) -/
def listCountries (ds : List DerivedRecord) : List String :=
  (ds.map (·.country)).dedup

/-- Row order used by `sort_values('Date')`: ascending by date. -/
def dateLE (a b : DerivedRecord) : Prop := a.date ≤ b.date

instance : DecidableRel dateLE := fun a b =>
  inferInstanceAs (Decidable (a.date ≤ b.date))

instance : IsTotal DerivedRecord dateLE where
  total a b := le_total a.date b.date

instance : IsTrans DerivedRecord dateLE where
  trans _ _ _ hab hbc := le_trans hab hbc

/-- QueryResult: the filtered series plus the four KPI card values. -/
structure QueryResult where
  series : List DerivedRecord
  total_confirmed : ℤ
  total_deaths : ℤ
  total_recovered : ℤ
  active_now : ℤ
deriving DecidableEq

/-- `filtered[col].max()` over a nonempty column (the code only evaluates it
on a nonempty frame; the `[]` case is never reached). -/
def colMax : List ℤ → ℤ
  | [] => 0
  | x :: xs => xs.foldl max x

/-- `filtered.iloc[-1]['Active']`: the `Active` value of the last row. -/
def lastActive (l : List DerivedRecord) : ℤ :=
  ((l.getLast?).map (·.active)).getD 0

/-- `update_dashboard`'s core: filter by country and inclusive date range,
sort ascending by date, then compute the KPIs (`max` of the three cumulative
columns; `Active` of the last row; all zero on an empty frame). -/
def query (ds : List DerivedRecord) (country : String) (startDate endDate : ℕ) :
    QueryResult :=
  let filtered :=
    (ds.filter fun r =>
      r.country = country ∧ startDate ≤ r.date ∧ r.date ≤ endDate).insertionSort dateLE
  if filtered = [] then
    { series := [], total_confirmed := 0, total_deaths := 0
      total_recovered := 0, active_now := 0 }
  else
    { series := filtered
      total_confirmed := colMax (filtered.map (·.confirmed))
      total_deaths := colMax (filtered.map (·.deaths))
      total_recovered := colMax (filtered.map (·.recovered))
      active_now := lastActive filtered }

/-! ## Date-string parsing in `update_dashboard`

`datetime.strptime(start_date_str.split('T')[0], '%Y-%m-%d').date()` -/

/-- Python's `s.split('T')[0]`: the prefix of `s` before the first `'T'`. -/
def splitT (s : String) : String :=
  ⟨s.data.takeWhile fun ch => ch ≠ 'T'⟩

/-- One `strptime` numeric field: nonempty, all digits, decimal value. -/
def digitsToNat? (cs : List Char) : Option ℕ :=
  if cs ≠ [] ∧ cs.all (·.isDigit) then
    some (cs.foldl (fun n ch => n * 10 + (ch.toNat - 48)) 0)
  else none

/-- Python's `str.split` on a single separator character. -/
def splitOnChar (sep : Char) : List Char → List (List Char)
  | [] => [[]]
  | c :: cs =>
    match splitOnChar sep cs with
    | [] => [[]]
    | g :: gs => if c = sep then [] :: g :: gs else (c :: g) :: gs

/-- Gregorian leap year. -/
def isLeap (y : ℕ) : Bool :=
  (y % 4 = 0 ∧ y % 100 ≠ 0) ∨ y % 400 = 0

/-- Days in a month of a given year. -/
def daysInMonth (y m : ℕ) : ℕ :=
  if m = 2 then (if isLeap y then 29 else 28)
  else if m = 4 ∨ m = 6 ∨ m = 9 ∨ m = 11 then 30
  else 31

/-- `datetime.strptime(s, '%Y-%m-%d').date()`: three dash-separated digit
groups (year up to 4 digits, month and day up to 2), validated as a calendar
date; the result is the date's day key `y * 10000 + m * 100 + d`. -/
def parseYMD (s : String) : Option ℕ :=
  match splitOnChar '-' s.data with
  | [ys, ms, dys] =>
    match digitsToNat? ys, digitsToNat? ms, digitsToNat? dys with
    | some y, some m, some d =>
      if ys.length ≤ 4 ∧ ms.length ≤ 2 ∧ dys.length ≤ 2 ∧
          1 ≤ m ∧ m ≤ 12 ∧ 1 ≤ d ∧ d ≤ daysInMonth y m then
        some (y * 10000 + m * 100 + d)
      else none
    | _, _, _ => none
  | _ => none

/-- The date-argument coercion of `update_dashboard`:
`datetime.strptime(s.split('T')[0], '%Y-%m-%d').date()`. -/
def parseDate (s : String) : Option ℕ := parseYMD (splitT s)

/-- `update_dashboard` taking its date arguments as the picker's ISO strings;
`none` models `strptime` raising on a malformed date string. -/
def queryStr (ds : List DerivedRecord) (country : String) (s e : String) :
    Option QueryResult :=
  match parseDate s, parseDate e with
  | some sd, some ed => some (query ds country sd ed)
  | _, _ => none

/-! ## Concrete sample data (the spec's §8 example scenario) -/

/-- Normalized rows of the spec's example scenario (dates as day keys 1, 2). -/
def rows0 : List Row :=
  [{ country := "X", date := 1, confirmed := 100, deaths := 5 },
   { country := "X", date := 1, confirmed := 10, deaths := 1 },
   { country := "X", date := 2, confirmed := 50, deaths := 2 }]

/-- The example scenario's derived dataset
(day 1: confirmed 110, deaths 6, recovered ⌊0.8·104⌋ = 83, active 21;
day 2: confirmed 50, deaths 2, recovered ⌊0.8·48⌋ = 38, active 10). -/
def ds0 : List DerivedRecord :=
  [{ country := "X", date := 1, confirmed := 110, deaths := 6, recovered := 83, active := 21 },
   { country := "X", date := 2, confirmed := 50, deaths := 2, recovered := 38, active := 10 }]

/-- A timestamp parser with one parsable and one unparsable form, standing in
for `pd.to_datetime(..., errors='coerce')`. -/
def parse0 : String → Option ℕ :=
  fun s => if s = "2021-01-01" then some 20210101 else none

/-- A raw input whose single row parses. -/
def raws1 : List RawRecord :=
  [{ country := "X", timestamp := "2021-01-01", confirmed := 5, deaths := 1 }]

/-- `raws1` plus one row whose timestamp fails to parse. -/
def raws2 : List RawRecord :=
  raws1 ++ [{ country := "X", timestamp := "not-a-date", confirmed := 7, deaths := 2 }]

/-! ## Helper lemmas -/

/-- The rational-valued derivation evaluates by integer arithmetic:
`⌊max ((c-d)·4/5) 0⌋ = max (4(c-d)) 0 / 5`. -/
theorem deriveRecovered_eq (c d : ℤ) :
    deriveRecovered c d = max (4 * (c - d)) 0 / 5 := by
  unfold deriveRecovered
  have h : max (((c : ℚ) - (d : ℚ)) * (4 / 5)) 0
      = ((max (4 * (c - d)) 0 : ℤ) : ℚ) / ((5 : ℕ) : ℚ) := by
    push_cast
    rw [← max_div_div_right (by norm_num : (0 : ℚ) ≤ 5)]
    rw [zero_div]
    ring_nf
  rw [h, Rat.floor_intCast_div_natCast]
  norm_num

theorem foldl_max_init_le (l : List ℤ) (b : ℤ) : b ≤ l.foldl max b := by
  induction l generalizing b with
  | nil => exact le_refl b
  | cons a t ih => exact le_trans (le_max_left b a) (ih (max b a))

theorem foldl_max_mem_le (l : List ℤ) (b : ℤ) :
    ∀ x ∈ l, x ≤ l.foldl max b := by
  induction l generalizing b with
  | nil => intro x hx; cases hx
  | cons a t ih =>
    intro x hx
    rcases List.mem_cons.mp hx with rfl | hx
    · exact le_trans (le_max_right b x) (foldl_max_init_le t (max b x))
    · exact ih (max b a) x hx

theorem foldl_max_mem_or (l : List ℤ) (b : ℤ) :
    l.foldl max b = b ∨ l.foldl max b ∈ l := by
  induction l generalizing b with
  | nil => exact Or.inl rfl
  | cons a t ih =>
    rcases ih (max b a) with h | h
    · rcases max_choice b a with hm | hm
      · exact Or.inl (by rw [List.foldl_cons, h, hm])
      · exact Or.inr (by rw [List.foldl_cons, h, hm]; exact List.mem_cons_self a t)
    · exact Or.inr (List.mem_cons_of_mem a h)

theorem colMax_mem {l : List ℤ} (h : l ≠ []) : colMax l ∈ l := by
  match l, h with
  | x :: xs, _ =>
    rcases foldl_max_mem_or xs x with h1 | h1
    · rw [colMax, h1]; exact List.mem_cons_self x xs
    · exact List.mem_cons_of_mem x h1

theorem le_colMax {l : List ℤ} : ∀ x ∈ l, x ≤ colMax l := by
  match l with
  | [] => intro x hx; cases hx
  | y :: ys =>
    intro x hx
    rcases List.mem_cons.mp hx with rfl | hx
    · exact foldl_max_init_le ys x
    · exact foldl_max_mem_le ys y x hx

theorem nodup_filter_eq_singleton {α : Type*} [DecidableEq α] :
    ∀ l : List α, l.Nodup → ∀ k ∈ l, l.filter (fun x => x = k) = [k] := by
  intro l
  induction l with
  | nil => intro _ k hk; cases hk
  | cons a t ih =>
    intro hnd k hk
    rcases List.nodup_cons.mp hnd with ⟨ha, ht⟩
    rcases List.mem_cons.mp hk with rfl | hk
    · rw [List.filter_cons_of_pos (by simp)]
      have : t.filter (fun x => x = k) = [] := by
        rw [List.filter_eq_nil_iff]
        intro x hx
        simp only [decide_eq_true_eq]
        exact fun e => ha (e ▸ hx)
      rw [this]
    · have hak : a ≠ k := fun e => ha (e ▸ hk)
      rw [List.filter_cons_of_neg (by simp [hak])]
      exact ih ht k hk

/-- The keys of the aggregated dataset are the distinct input keys. -/
theorem aggregate_map_rowKey (l : List Row) :
    (aggregate l).map rowKey = (l.map rowKey).dedup := by
  unfold aggregate
  rw [List.map_map]
  have h : (rowKey ∘ aggRecord l) = id := by
    funext k
    simp [rowKey, aggRecord]
  rw [h, List.map_id]

/-! ## Claims -/

/-- C1: every DerivedRecord produced by the Feature Deriver has
`recovered ≥ 0`, satisfies the conservation law
`recovered + active + deaths = confirmed`, and `active` can be negative only
when `confirmed - deaths < 0` (so `confirmed ≥ deaths` implies `active ≥ 0`). -/
theorem C1_derived_record_invariants (rows : List Row) (r : DerivedRecord)
    (hr : r ∈ derive rows) :
    0 ≤ r.recovered ∧ r.recovered + r.active + r.deaths = r.confirmed ∧
      (r.deaths ≤ r.confirmed → 0 ≤ r.active) := by
  rcases List.mem_map.mp hr with ⟨row, _, rfl⟩
  refine ⟨?_, ?_, ?_⟩
  · show 0 ≤ deriveRecovered row.confirmed row.deaths
    unfold deriveRecovered
    exact Int.floor_nonneg.mpr (le_max_right _ _)
  · show deriveRecovered row.confirmed row.deaths +
        (row.confirmed - row.deaths - deriveRecovered row.confirmed row.deaths) +
        row.deaths = row.confirmed
    ring
  · intro h
    show 0 ≤ row.confirmed - row.deaths -
        deriveRecovered row.confirmed row.deaths
    have hq : (row.deaths : ℚ) ≤ (row.confirmed : ℚ) := by exact_mod_cast h
    have hle : max (((row.confirmed : ℚ) - (row.deaths : ℚ)) * (4 / 5)) 0 ≤
        ((row.confirmed - row.deaths : ℤ) : ℚ) := by
      push_cast
      apply max_le
      · linarith
      · linarith
    have h1 : deriveRecovered row.confirmed row.deaths ≤
        row.confirmed - row.deaths := by
      unfold deriveRecovered
      calc ⌊max (((row.confirmed : ℚ) - (row.deaths : ℚ)) * (4 / 5)) 0⌋
          ≤ ⌊((row.confirmed - row.deaths : ℤ) : ℚ)⌋ := Int.floor_mono hle
        _ = row.confirmed - row.deaths := Int.floor_intCast _
    linarith

/-- Witness for C1 on the spec's example record (confirmed 110, deaths 6). -/
theorem C1_derived_record_invariants_witness :
    0 ≤ (deriveRow ⟨"X", 1, 110, 6⟩).recovered ∧
      (deriveRow ⟨"X", 1, 110, 6⟩).recovered + (deriveRow ⟨"X", 1, 110, 6⟩).active +
        (deriveRow ⟨"X", 1, 110, 6⟩).deaths = (deriveRow ⟨"X", 1, 110, 6⟩).confirmed ∧
      ((deriveRow ⟨"X", 1, 110, 6⟩).deaths ≤ (deriveRow ⟨"X", 1, 110, 6⟩).confirmed →
        0 ≤ (deriveRow ⟨"X", 1, 110, 6⟩).active) :=
  C1_derived_record_invariants (aggregate rows0) (deriveRow ⟨"X", 1, 110, 6⟩)
    (List.mem_map_of_mem deriveRow (by decide))

/-- C2: the Feature Deriver computes
`recovered = floor(max(0, (confirmed - deaths) * 0.8))` with the clamp to
non-negative applied to `(confirmed - deaths)` before scaling by 0.8 and the
floor applied last: the code's scale-then-clip is extensionally equal. -/
theorem C2_recovered_clamp_scale_floor (r : Row) :
    (deriveRow r).recovered = specRecovered r.confirmed r.deaths := by
  show deriveRecovered r.confirmed r.deaths = specRecovered r.confirmed r.deaths
  unfold deriveRecovered specRecovered
  congr 1
  rw [max_mul_of_nonneg _ _ (by norm_num : (0 : ℚ) ≤ 4 / 5), zero_mul]

/-- C8 (amended): the Normalizer excludes exactly the records whose timestamp
fails to parse — a normalized record exists precisely for each raw record
whose timestamp parses, carrying its fields — and the number of exclusions is
input length minus output length. -/
theorem C8_normalizer_excludes_unparsable (parse : String → Option ℕ)
    (l : List RawRecord) :
    ((normalize parse l).length + excludedCount parse l = l.length) ∧
    ∀ x : Row, x ∈ normalize parse l ↔
      ∃ r ∈ l, parse r.timestamp = some x.date ∧ x.country = r.country ∧
        x.confirmed = r.confirmed ∧ x.deaths = r.deaths := by
  constructor
  · induction l with
    | nil => rfl
    | cons r t ih =>
      simp only [normalize, excludedCount] at ih ⊢
      cases hp : parse r.timestamp <;>
        simp [List.filterMap_cons, List.filter_cons, hp] <;>
        omega
  · intro x
    constructor
    · intro hx
      rcases List.mem_filterMap.mp hx with ⟨r, hrl, hr⟩
      rcases Option.map_eq_some'.mp hr with ⟨dt, hdt, hg⟩
      subst hg
      exact ⟨r, hrl, hdt, rfl, rfl, rfl⟩
    · rintro ⟨r, hrl, hp, hc, hcf, hd⟩
      apply List.mem_filterMap.mpr
      refine ⟨r, hrl, ?_⟩
      rw [hp]
      obtain ⟨xc, xd, xcf, xdd⟩ := x
      simp only at hc hcf hd
      subst hc; subst hcf; subst hd
      rfl

/-- Witness for C8 on the concrete parser and inputs. -/
theorem C8_normalizer_excludes_unparsable_witness :
    (normalize parse0 raws2).length + excludedCount parse0 raws2 = raws2.length :=
  (C8_normalizer_excludes_unparsable parse0 raws2).1

/-- C8 counterexample: two raw inputs with different numbers of unparsable
records yield identical Normalizer output, so the exclusion count is not
observable from anything the program computes — the second conjunct of the
claim fails. -/
theorem C8_exclusion_count_unobservable :
    normalize parse0 raws1 = normalize parse0 raws2 ∧
      excludedCount parse0 raws1 = 0 ∧ excludedCount parse0 raws2 = 1 := by
  decide

/-- C3: the Aggregator's output has exactly one record per (country, date)
key occurring in the input — its keys are duplicate-free and are exactly the
input keys — and each output record's `confirmed` and `deaths` are the sums
of the input values sharing its key. -/
theorem C3_aggregate_one_record_per_key (l : List Row) :
    ((aggregate l).map rowKey).Nodup ∧
    (∀ k : String × ℕ, k ∈ (aggregate l).map rowKey ↔ k ∈ l.map rowKey) ∧
    ∀ rec ∈ aggregate l,
      rec.confirmed = ((l.filter fun r => rowKey r = rowKey rec).map (·.confirmed)).sum ∧
      rec.deaths = ((l.filter fun r => rowKey r = rowKey rec).map (·.deaths)).sum := by
  refine ⟨?_, ?_, ?_⟩
  · rw [aggregate_map_rowKey]
    exact List.nodup_dedup _
  · intro k
    rw [aggregate_map_rowKey]
    exact List.mem_dedup
  · intro rec hrec
    rcases List.mem_map.mp hrec with ⟨k, _, rfl⟩
    exact ⟨rfl, rfl⟩

/-- Witness for C3 on the spec's example rows. -/
theorem C3_aggregate_one_record_per_key_witness :
    ((aggregate rows0).map rowKey).Nodup ∧
      ((("X" : String), (1 : ℕ)) ∈ (aggregate rows0).map rowKey ↔
        (("X" : String), (1 : ℕ)) ∈ rows0.map rowKey) ∧
      (⟨"X", 1, 110, 6⟩ : Row).confirmed =
        ((rows0.filter fun r => rowKey r = rowKey ⟨"X", 1, 110, 6⟩).map
          (·.confirmed)).sum :=
  ⟨(C3_aggregate_one_record_per_key rows0).1,
    (C3_aggregate_one_record_per_key rows0).2.1 ("X", 1),
    ((C3_aggregate_one_record_per_key rows0).2.2 ⟨"X", 1, 110, 6⟩ (by decide)).1⟩

/-- C9: the Aggregator is order-independent — permuting the input permutes
nothing observable: the outputs are permutations of each other (hence, having
duplicate-free keys, the same set of DailyCountryRecord) — and idempotent:
re-aggregating its own output returns it unchanged. -/
theorem C9_aggregate_order_independent_idempotent :
    (∀ l₁ l₂ : List Row, l₁.Perm l₂ →
        (aggregate l₁).Perm (aggregate l₂) ∧
          ∀ r : Row, r ∈ aggregate l₁ ↔ r ∈ aggregate l₂) ∧
    ∀ l : List Row, aggregate (aggregate l) = aggregate l := by
  constructor
  · intro l₁ l₂ h
    have hrec : ∀ k : String × ℕ, aggRecord l₁ k = aggRecord l₂ k := by
      intro k
      unfold aggRecord
      have hc : ((l₁.filter fun r => rowKey r = k).map (·.confirmed)).sum =
          ((l₂.filter fun r => rowKey r = k).map (·.confirmed)).sum :=
        ((h.filter _).map _).sum_eq
      have hd : ((l₁.filter fun r => rowKey r = k).map (·.deaths)).sum =
          ((l₂.filter fun r => rowKey r = k).map (·.deaths)).sum :=
        ((h.filter _).map _).sum_eq
      rw [hc, hd]
    have hperm : (aggregate l₁).Perm (aggregate l₂) := by
      unfold aggregate
      rw [List.map_congr_left fun k _ => hrec k]
      exact ((h.map rowKey).dedup).map (aggRecord l₂)
    exact ⟨hperm, fun r => hperm.mem_iff⟩
  · intro l
    have hnd : ((aggregate l).map rowKey).Nodup := by
      rw [aggregate_map_rowKey]
      exact List.nodup_dedup _
    have hgroup : ∀ k ∈ (l.map rowKey).dedup,
        (aggregate l).filter (fun r => rowKey r = k) = [aggRecord l k] := by
      intro k hk
      show ((((l.map rowKey).dedup).map (aggRecord l)).filter
          (fun r => rowKey r = k)) = [aggRecord l k]
      rw [List.filter_map]
      have hp : ((fun r => decide (rowKey r = k)) ∘ aggRecord l) =
          fun k' => decide (k' = k) := by
        funext k'
        simp [rowKey, aggRecord]
      rw [hp, nodup_filter_eq_singleton _ (List.nodup_dedup _) k hk]
      rfl
    show (((aggregate l).map rowKey).dedup).map (aggRecord (aggregate l)) =
        aggregate l
    rw [List.dedup_eq_self.mpr hnd, aggregate_map_rowKey]
    apply List.map_congr_left
    intro k hk
    show aggRecord (aggregate l) k = aggRecord l k
    unfold aggRecord
    rw [hgroup k hk]
    simp [aggRecord]

/-- Witness for C9's permutation hypothesis on the example rows reversed. -/
theorem C9_aggregate_order_independent_idempotent_witness :
    (aggregate rows0).Perm (aggregate rows0.reverse) :=
  ((C9_aggregate_order_independent_idempotent.1 rows0 rows0.reverse (by decide)).1)

/-- The last row's `Active` value, as `iloc[-1]` on a nonempty frame. -/
theorem lastActive_eq_getLast (l : List DerivedRecord) (h : l ≠ []) :
    lastActive l = (l.getLast h).active := by
  rw [lastActive, List.getLast?_eq_getLast l h]
  rfl

/-- The Query Engine's filtered, date-sorted frame. -/
theorem query_eq_of_ne_nil (ds : List DerivedRecord) (c : String) (s e : ℕ)
    (hF : (ds.filter fun r =>
        r.country = c ∧ s ≤ r.date ∧ r.date ≤ e).insertionSort dateLE ≠ []) :
    query ds c s e =
      { series := (ds.filter fun r =>
            r.country = c ∧ s ≤ r.date ∧ r.date ≤ e).insertionSort dateLE
        total_confirmed := colMax (((ds.filter fun r =>
            r.country = c ∧ s ≤ r.date ∧ r.date ≤ e).insertionSort dateLE).map
              (·.confirmed))
        total_deaths := colMax (((ds.filter fun r =>
            r.country = c ∧ s ≤ r.date ∧ r.date ≤ e).insertionSort dateLE).map
              (·.deaths))
        total_recovered := colMax (((ds.filter fun r =>
            r.country = c ∧ s ≤ r.date ∧ r.date ≤ e).insertionSort dateLE).map
              (·.recovered))
        active_now := lastActive ((ds.filter fun r =>
            r.country = c ∧ s ≤ r.date ∧ r.date ≤ e).insertionSort dateLE) } := by
  unfold query
  rw [if_neg hF]

/-- C5: a record is in the query's series exactly when it is a dataset record
of the queried country with its date inside the inclusive [startDate, endDate]
range, and the series is sorted ascending by date. -/
theorem C5_series_membership_sorted (ds : List DerivedRecord) (c : String)
    (s e : ℕ) (_hse : s ≤ e) :
    (∀ r : DerivedRecord, r ∈ (query ds c s e).series ↔
        r ∈ ds ∧ r.country = c ∧ s ≤ r.date ∧ r.date ≤ e) ∧
    (query ds c s e).series.Sorted dateLE := by
  by_cases hF : (ds.filter fun r =>
      r.country = c ∧ s ≤ r.date ∧ r.date ≤ e).insertionSort dateLE = []
  · have hq : query ds c s e =
        { series := [], total_confirmed := 0, total_deaths := 0
          total_recovered := 0, active_now := 0 } := by
      unfold query
      rw [if_pos hF]
    rw [hq]
    constructor
    · intro r
      simp only [List.not_mem_nil, false_iff]
      rintro ⟨hrds, hrc, hrs, hre⟩
      have hr : r ∈ (ds.filter fun r =>
          r.country = c ∧ s ≤ r.date ∧ r.date ≤ e).insertionSort dateLE := by
        rw [List.mem_insertionSort, List.mem_filter]
        exact ⟨hrds, by simp [hrc, hrs, hre]⟩
      rw [hF] at hr
      cases hr
    · exact List.sorted_nil
  · rw [query_eq_of_ne_nil ds c s e hF]
    constructor
    · intro r
      simp only
      rw [List.mem_insertionSort, List.mem_filter]
      simp [and_assoc]
    · exact List.sorted_insertionSort dateLE _

/-- Witness for C5 at the example dataset with bounds 1 ≤ 2. -/
theorem C5_series_membership_sorted_witness :
    ((⟨"X", 1, 110, 6, 83, 21⟩ : DerivedRecord) ∈ (query ds0 "X" 1 2).series ↔
      (⟨"X", 1, 110, 6, 83, 21⟩ : DerivedRecord) ∈ ds0 ∧
        (⟨"X", 1, 110, 6, 83, 21⟩ : DerivedRecord).country = "X" ∧
        1 ≤ (⟨"X", 1, 110, 6, 83, 21⟩ : DerivedRecord).date ∧
        (⟨"X", 1, 110, 6, 83, 21⟩ : DerivedRecord).date ≤ 2) ∧
    (query ds0 "X" 1 2).series.Sorted dateLE :=
  ⟨(C5_series_membership_sorted ds0 "X" 1 2 (by decide)).1 _,
    (C5_series_membership_sorted ds0 "X" 1 2 (by decide)).2⟩

/-- C6: an empty filtered series — in particular any query with reversed
bounds — yields the normal all-zero result, not an error. -/
theorem C6_empty_series_zero_kpis (ds : List DerivedRecord) (c : String)
    (s e : ℕ) :
    ((query ds c s e).series = [] →
        query ds c s e =
          { series := [], total_confirmed := 0, total_deaths := 0
            total_recovered := 0, active_now := 0 }) ∧
    (e < s →
        query ds c s e =
          { series := [], total_confirmed := 0, total_deaths := 0
            total_recovered := 0, active_now := 0 }) := by
  constructor
  · intro h
    by_cases hF : (ds.filter fun r =>
        r.country = c ∧ s ≤ r.date ∧ r.date ≤ e).insertionSort dateLE = []
    · unfold query
      rw [if_pos hF]
    · rw [query_eq_of_ne_nil ds c s e hF] at h
      exact absurd h hF
  · intro hes
    have hfil : (ds.filter fun r =>
        r.country = c ∧ s ≤ r.date ∧ r.date ≤ e) = [] := by
      rw [List.filter_eq_nil_iff]
      intro r _
      simp only [decide_eq_true_eq, not_and]
      intro _ h1 h2
      omega
    unfold query
    rw [hfil]
    rfl

/-- Witness for C6 with reversed bounds 5 > 1. -/
theorem C6_empty_series_zero_kpis_witness :
    query ds0 "X" 5 1 =
      { series := [], total_confirmed := 0, total_deaths := 0
        total_recovered := 0, active_now := 0 } :=
  (C6_empty_series_zero_kpis ds0 "X" 5 1).2 (by decide)

/-- C7 is false of the code: a country absent from the dataset's domain does
not raise any error — `update_dashboard` has no error path — and is masked as
the normal empty result. -/
theorem C7_unknown_country_not_an_error :
    "Atlantis" ∉ listCountries ds0 ∧
      query ds0 "Atlantis" 1 2 =
        { series := [], total_confirmed := 0, total_deaths := 0
          total_recovered := 0, active_now := 0 } := by
  decide

/-- C7 (amended): a query for a country outside `listCountries()` returns the
normal empty result (empty series, all KPIs 0); no InvalidQuery error is
raised, the unknown country being indistinguishable from an empty range. -/
theorem C7_unknown_country_empty_result (ds : List DerivedRecord) (c : String)
    (s e : ℕ) (h : c ∉ listCountries ds) :
    query ds c s e =
      { series := [], total_confirmed := 0, total_deaths := 0
        total_recovered := 0, active_now := 0 } := by
  have hfil : (ds.filter fun r =>
      r.country = c ∧ s ≤ r.date ∧ r.date ≤ e) = [] := by
    rw [List.filter_eq_nil_iff]
    intro r hr
    simp only [decide_eq_true_eq, not_and]
    intro hc
    exfalso
    apply h
    rw [← hc]
    exact List.mem_dedup.mpr (List.mem_map_of_mem _ hr)
  unfold query
  rw [hfil]
  rfl

/-- Witness for C7's amended theorem at the example dataset. -/
theorem C7_unknown_country_empty_result_witness :
    query ds0 "Atlantis" 1 2 =
      { series := [], total_confirmed := 0, total_deaths := 0
        total_recovered := 0, active_now := 0 } :=
  C7_unknown_country_empty_result ds0 "Atlantis" 1 2 (by decide)

/-- C4: on a nonempty series, `total_confirmed`, `total_deaths` and
`total_recovered` are the maxima of their columns over the series (attained
and bounding), and `active_now` is the `active` value of the last record in
ascending date order, not a maximum. -/
theorem C4_kpi_values (ds : List DerivedRecord) (c : String) (s e : ℕ)
    (h : (query ds c s e).series ≠ []) :
    ((query ds c s e).total_confirmed ∈
        (query ds c s e).series.map (·.confirmed) ∧
      ∀ r ∈ (query ds c s e).series,
        r.confirmed ≤ (query ds c s e).total_confirmed) ∧
    ((query ds c s e).total_deaths ∈ (query ds c s e).series.map (·.deaths) ∧
      ∀ r ∈ (query ds c s e).series,
        r.deaths ≤ (query ds c s e).total_deaths) ∧
    ((query ds c s e).total_recovered ∈
        (query ds c s e).series.map (·.recovered) ∧
      ∀ r ∈ (query ds c s e).series,
        r.recovered ≤ (query ds c s e).total_recovered) ∧
    (query ds c s e).active_now = ((query ds c s e).series.getLast h).active := by
  by_cases hF : (ds.filter fun r =>
      r.country = c ∧ s ≤ r.date ∧ r.date ≤ e).insertionSort dateLE = []
  · exfalso
    apply h
    unfold query
    rw [if_pos hF]
  · revert h
    rw [query_eq_of_ne_nil ds c s e hF]
    intro h
    refine ⟨⟨?_, ?_⟩, ⟨?_, ?_⟩, ⟨?_, ?_⟩, ?_⟩
    · exact colMax_mem (by simpa using hF)
    · intro r hr
      exact le_colMax _ (List.mem_map_of_mem _ hr)
    · exact colMax_mem (by simpa using hF)
    · intro r hr
      exact le_colMax _ (List.mem_map_of_mem _ hr)
    · exact colMax_mem (by simpa using hF)
    · intro r hr
      exact le_colMax _ (List.mem_map_of_mem _ hr)
    · exact lastActive_eq_getLast _ h

/-- Witness for C4 on the example dataset: the confirmed KPI is attained. -/
theorem C4_kpi_values_witness :
    (query ds0 "X" 1 2).total_confirmed ∈
      (query ds0 "X" 1 2).series.map (·.confirmed) :=
  (C4_kpi_values ds0 "X" 1 2 (by decide)).1.1

/-- C10: the query's date-string arguments are used only through the calendar
portion before any `'T'`: arguments agreeing before the `'T'` separator give
identical results. -/
theorem C10_date_suffix_after_T_ignored (ds : List DerivedRecord) (c : String)
    (s₁ e₁ s₂ e₂ : String) (hs : splitT s₁ = splitT s₂)
    (he : splitT e₁ = splitT e₂) :
    queryStr ds c s₁ e₁ = queryStr ds c s₂ e₂ := by
  unfold queryStr parseDate
  rw [hs, he]

/-- Witness for C10: time-of-day suffixes do not change the result. -/
theorem C10_date_suffix_after_T_ignored_witness :
    queryStr ds0 "X" "2021-01-01T08:00Z" "2021-01-02T12:00" =
      queryStr ds0 "X" "2021-01-01T23:59:59Z" "2021-01-02" :=
  C10_date_suffix_after_T_ignored ds0 "X" _ _ _ _ (by decide) (by decide)

end CovidDashboard
